import Mathlib

/-!
Verification of the transfer supervision engine of the telegram download bot
(`telegram_bot.py`, `download_torrent.py`) against its natural-language
specification.  The Python source is shallowly embedded: pure functions become
Lean functions, the stateful handler code becomes explicit state passing over a
small state type, file I/O becomes an explicit trace of file-system operations,
and the JSON values manipulated by the persistence layer become an inductive
JSON syntax tree.  Python `float` arithmetic inside `format_bytes` is modelled
by exact rational arithmetic (scaled integers); at every point where a claim
evaluates the function the floating-point computation is exact, so the model
and the source agree there.
-/

namespace TDB

/-- The single-quote character as a string (used inside user-facing messages). -/
def sq : String := String.singleton (Char.ofNat 39)

/-! ## `os.path.splitext` (posix variant), as used by the source

`telegram_bot.py` and `download_torrent.py` both compute a file's extension
with `os.path.splitext(file_path)` and compare its lower-cased form against
`ALLOWED_EXTENSIONS`.  `splitext` returns the suffix of the basename starting
at its last dot, except that a basename consisting of leading dots only (such
as `.bashrc`) has no extension. -/

/-- The basename of a posix path: the part after the last `/`. -/
def basenameOf (cs : List Char) : List Char :=
  (cs.reverse.takeWhile (fun c => c ≠ '/')).reverse

/-- Extension part of `os.path.splitext p` (with the leading dot), posix rules. -/
def splitext_ext (p : String) : String :=
  let bs := basenameOf p.toList
  let lead := (bs.takeWhile (fun c => c = '.')).length
  if '.' ∈ bs.drop lead then
    String.mk ('.' :: (bs.reverse.takeWhile (fun c => c ≠ '.')).reverse)
  else ""

/-- ASCII lower-casing of one character, as `str.lower()` acts on the ASCII
range (file extensions are ASCII; the Unicode cases of `str.lower` are not
exercised by extension strings). -/
def lowerChar (c : Char) : Char :=
  if 65 ≤ c.toNat ∧ c.toNat ≤ 90 then Char.ofNat (c.toNat + 32) else c

/-- `s.lower()` restricted to ASCII input. -/
def strLower (s : String) : String := String.mk (s.toList.map lowerChar)

/-! ## Policy constants (`telegram_bot.py` lines 35-37) -/

def MAX_TORRENT_SIZE_GB : Nat := 10

def MAX_TORRENT_SIZE_BYTES : Nat := MAX_TORRENT_SIZE_GB * 1024 ^ 3

def ALLOWED_EXTENSIONS : List String := [".mkv", ".mp4"]

/-! ## The content manifest

`lt.torrent_info` exposes an ordered file list; entry `i` has a relative path
`files.file_path(i)` and a size `files.file_size(i)`.  A manifest is embedded
as the list of `(relativePath, sizeBytes)` pairs together with the total size
(`ti.total_size()`), which the engine reports separately. -/

/-- One manifest entry: relative path and size in bytes. -/
abbrev FileEntry := String × Nat

/-- Does this entry's lower-cased extension fall outside the allowlist?  This is
the test `ext.lower() not in ALLOWED_EXTENSIONS` of the source. -/
def badExt (p : String) : Prop := strLower (splitext_ext p) ∉ ALLOWED_EXTENSIONS

instance (p : String) : Decidable (badExt p) := by
  unfold badExt; infer_instance

/-- An entry is substantial when its size strictly exceeds the fixed 10MB floor
(`file_size > 10 * 1024 * 1024` in the source). -/
def substantial (e : FileEntry) : Prop := e.2 > 10 * 1024 * 1024

instance (e : FileEntry) : Decidable (substantial e) := by
  unfold substantial; infer_instance

/-- The rejection message `validate_torrent_files` builds for a bad extension
(`f"contains an unsupported file type ('{ext}'). ..."`). -/
def unsupportedMsg (ext : String) : String :=
  "contains an unsupported file type (" ++ sq ++ ext ++ sq ++
    "). I can only download .mkv and .mp4 files."

/-- The first pass of the loop in `validate_torrent_files` (lines 521-529): walk
the entries in order and return the message of the first substantial entry whose
extension is outside the allowlist. -/
def first_large_bad : List FileEntry → Option String
  | [] => none
  | e :: rest =>
      if substantial e ∧ badExt e.1 then some (unsupportedMsg (splitext_ext e.1))
      else first_large_bad rest

/-- `max(range(files.num_files()), key=files.file_size)` followed by the
`file_path`/`file_size` reads: Python's `max` keeps the current best and
replaces it only on a strictly larger key, so the first entry of maximal size
wins.  The index itself is only ever used to read the entry back, so the
embedding carries the entry directly. -/
def largest_file_aux : List FileEntry → FileEntry → FileEntry
  | [], best => best
  | e :: rest, best =>
      if e.2 > best.2 then largest_file_aux rest e else largest_file_aux rest best

/-- The entry picked by the fallback branch of `validate_torrent_files`. -/
def largest_file : List FileEntry → FileEntry
  | [] => ("", 0)
  | e :: rest => largest_file_aux rest e

/-- `validate_torrent_files` (`telegram_bot.py` lines 514-538).  Returns `none`
on acceptance, or `some reason` on rejection. -/
def validate_torrent_files (files : List FileEntry) : Option String :=
  if files.length = 0 then some "the torrent contains no files."
  else
    match first_large_bad files with
    | some r => some r
    | none =>
        if files.any (fun e => decide (substantial e)) then none
        else
          let p := (largest_file files).1
          if badExt p then some (unsupportedMsg (splitext_ext p)) else none

/-! ## `format_bytes` (`telegram_bot.py` lines 411-417)

The source computes `i = floor(log(size, 1024))`, `p = 1024 ** i`,
`s = round(size / p, 2)` with Python floats and renders `f"{s} {unit}"`.
The model computes the same quantities exactly: `log1024` is the exact integer
logarithm, `round2` is the exact round-half-to-even of `size / 1024^i` scaled by
100 (Python's `round(x, 2)` on a float rounds half to even), and `renderRound2`
prints the resulting two-decimal value the way Python's `str` prints a float
with at most two fractional digits (always keeping at least one digit, so
integral values render as `n.0`). -/

/-- Fuel-driven integer logarithm base 1024 (`0` for inputs below 1024). -/
def log1024_aux : Nat → Nat → Nat
  | 0, _ => 0
  | fuel + 1, n => if n < 1024 then 0 else 1 + log1024_aux fuel (n / 1024)

def log1024 (n : Nat) : Nat := log1024_aux n n

/-- `round(num / den, 2)` as an exact integer scaled by 100, half to even. -/
def round2 (num den : Nat) : Nat :=
  let q := (100 * num) / den
  let r := (100 * num) % den
  if 2 * r < den then q
  else if 2 * r > den then q + 1
  else if q % 2 = 0 then q else q + 1

/-- Render a value scaled by 100 the way Python prints the float. -/
def renderRound2 (s100 : Nat) : String :=
  let ip := s100 / 100
  let fr := s100 % 100
  if fr = 0 then toString ip ++ ".0"
  else if fr % 10 = 0 then toString ip ++ "." ++ toString (fr / 10)
  else toString ip ++ "." ++ (if fr < 10 then "0" else "") ++ toString fr

def size_name : List String := ["B", "KB", "MB", "GB", "TB"]

def format_bytes (size_bytes : Nat) : String :=
  if size_bytes ≤ 0 then "0B"
  else
    let i := log1024 size_bytes
    let s100 := round2 size_bytes (1024 ^ i)
    renderRound2 s100 ++ " " ++ size_name.getD i ""

/-! ## The total-size policy check (`handle_message`, lines 1313-1317) -/

/-- Substring containment: `big` contains `small` as a contiguous substring. -/
def containsStr (big small : String) : Prop :=
  ∃ pre post, big = pre ++ small ++ post

/-- The size-limit rejection message built at line 1314. -/
def sizeLimitMsg (total_size : Nat) : String :=
  "This torrent is *" ++ format_bytes total_size ++
    "*, which is larger than the *" ++ toString MAX_TORRENT_SIZE_GB ++ " GB* limit."

/-- The guard `if ti.total_size() > MAX_TORRENT_SIZE_BYTES` of `handle_message`:
`some reason` means the manifest is rejected with that reason. -/
def size_check (total_size : Nat) : Option String :=
  if total_size > MAX_TORRENT_SIZE_BYTES then some (sizeLimitMsg total_size)
  else none

/-! ## JSON values and the persisted data model

`save_active_downloads` serializes the active-downloads dict with `json.dump`
and `load_active_downloads` reads it back with `json.load`.  JSON values are
embedded as a syntax tree; objects carry their key-value pairs in insertion
order, exactly as Python dicts do. -/

inductive JVal : Type where
  | null : JVal
  | str : String → JVal
  | num : Int → JVal
  | obj : List (String × JVal) → JVal

/-- The `pending_torrent` dict built at `handle_message` step 9 (lines
1390-1396) and in `button_handler` (lines 1501-1507): content descriptor plus
display metadata.  `parsed_info` is classification metadata, opaque to the
persistence layer, kept as a raw JSON value. -/
structure SourceDict where
  type : Option String
  value : Option String
  clean_name : String
  parsed_info : JVal
  original_message_id : Int

/-- One record of the `active_downloads` dict, built in `button_handler` lines
1654-1662: the confirmed descriptor, the chat and progress-message ids, the
resolved destination path, and (added after `asyncio.create_task`) the running
task handle, which is the one non-serializable field. -/
structure DownloadData where
  source_dict : SourceDict
  chat_id : Int
  message_id : Int
  save_path : String
  task : Option Nat

/-- The in-memory active set: a dict keyed by `str(chat_id)`, embedded as an
association list in insertion order. -/
abbrev ActiveSet := List (String × DownloadData)

/-- JSON encoding of a `pending_torrent` dict, field order as constructed. -/
def encodeSource (s : SourceDict) : JVal :=
  .obj [("type", match s.type with | none => .null | some t => .str t),
        ("value", match s.value with | none => .null | some v => .str v),
        ("clean_name", .str s.clean_name),
        ("parsed_info", s.parsed_info),
        ("original_message_id", .num s.original_message_id)]

/-- `serializable_data = download_data.copy(); serializable_data.pop('task')`:
the JSON written for one record, with the task handle removed
(`save_active_downloads`, lines 580-583). -/
def encodeData (d : DownloadData) : JVal :=
  .obj [("source_dict", encodeSource d.source_dict),
        ("chat_id", .num d.chat_id),
        ("message_id", .num d.message_id),
        ("save_path", .str d.save_path)]

/-- The whole JSON document `save_active_downloads` writes: a mapping keyed by
the session identifier. -/
def save_active_downloads (active : ActiveSet) : JVal :=
  .obj (active.map (fun kv => (kv.1, encodeData kv.2)))

/-- First-match association lookup (`d[key]` / `d.get(key)` on a dict). -/
def lookupKey (k : String) : List (String × α) → Option α
  | [] => none
  | kv :: rest => if kv.1 = k then some kv.2 else lookupKey k rest

/-- Reading one field of a JSON object, as `dict[key]` does on the parsed
persistence data. -/
def jGet (j : JVal) (key : String) : Option JVal :=
  match j with
  | .obj kvs => lookupKey key kvs
  | _ => none

/-- Decoding of a persisted `source_dict`, mirroring the field accesses of the
resume path (`download_task_wrapper` lines 1680-1683 and `button_handler`). -/
def decodeSource (j : JVal) : Option SourceDict := do
  let ty ← match jGet j "type" with
    | some .null => some none
    | some (.str t) => some (some t)
    | _ => none
  let va ← match jGet j "value" with
    | some .null => some none
    | some (.str v) => some (some v)
    | _ => none
  let cn ← match jGet j "clean_name" with | some (.str c) => some c | _ => none
  let pi ← jGet j "parsed_info"
  let om ← match jGet j "original_message_id" with | some (.num n) => some n | _ => none
  pure { type := ty, value := va, clean_name := cn, parsed_info := pi,
         original_message_id := om }

/-- Decoding of one persisted download record.  The reconstructed record has no
task handle: the task is recreated by `post_init`, not read from disk. -/
def decodeData (j : JVal) : Option DownloadData := do
  let sd ← jGet j "source_dict" >>= decodeSource
  let ci ← match jGet j "chat_id" with | some (.num n) => some n | _ => none
  let mi ← match jGet j "message_id" with | some (.num n) => some n | _ => none
  let sp ← match jGet j "save_path" with | some (.str s) => some s | _ => none
  pure { source_dict := sd, chat_id := ci, message_id := mi, save_path := sp,
         task := none }

/-- Decoding of the entries of a persisted active set, one record at a time
(as `post_init` iterates the loaded dict). -/
def decodeEntries : List (String × JVal) → Option ActiveSet
  | [] => some []
  | kv :: rest => do
      let d ← decodeData kv.2
      let tail ← decodeEntries rest
      pure ((kv.1, d) :: tail)

/-- Decoding of a whole persisted active set. -/
def decodeActive (j : JVal) : Option ActiveSet :=
  match j with
  | .obj kvs => decodeEntries kvs
  | _ => none

/-! ## The persistence file and `load_active_downloads`

The raw bytes of the persistence file are classified by how
`open(file_path, 'r')` followed by `json.load(f)` treats them.  The file is
opened in text mode, so three distinct exception classes can arise, and the
`except (json.JSONDecodeError, IOError)` clause of `load_active_downloads`
catches only two of them: `UnicodeDecodeError` (a `ValueError` that is neither
a `JSONDecodeError` nor an `IOError`) propagates out of the function. -/

/-- The exceptions the read-and-parse step can raise. -/
inductive ReadError : Type where
  | jsonDecodeError : ReadError
  | unicodeDecodeError : ReadError
  | readFailure : ReadError
  deriving DecidableEq

/-- Raw content of the persistence file: `jsonContent j` is UTF-8 text that
`json.load` parses to `j`; `malformed s` is UTF-8 text that `json.load`
rejects with `JSONDecodeError` (the zero-byte file left by a truncation is
such content); `notUtf8` is byte content that is not valid UTF-8, making the
text-mode read inside `json.load` raise `UnicodeDecodeError`; `unreadable` is
content that cannot be read at all (`IOError`). -/
inductive RawContent : Type where
  | jsonContent : JVal → RawContent
  | malformed : String → RawContent
  | notUtf8 : RawContent
  | unreadable : RawContent

/-- State of the persistence path: the file is absent, or holds some bytes. -/
inductive FileState : Type where
  | absent : FileState
  | content : RawContent → FileState

/-- `open(file_path, 'r')` followed by `json.load(f)`: succeeds exactly when
the bytes decode as UTF-8 and parse as JSON, and otherwise raises the
exception class determined by the content. -/
def open_and_decode (raw : RawContent) : Except ReadError JVal :=
  match raw with
  | .jsonContent j => .ok j
  | .malformed _ => .error .jsonDecodeError
  | .notUtf8 => .error .unicodeDecodeError
  | .unreadable => .error .readFailure

/-- Which exceptions the clause `except (json.JSONDecodeError, IOError)` at
`telegram_bot.py` line 601 catches: `UnicodeDecodeError` is not among them. -/
def caught_by_load (e : ReadError) : Bool :=
  match e with
  | .jsonDecodeError => true
  | .readFailure => true
  | .unicodeDecodeError => false

/-- `load_active_downloads` (`telegram_bot.py` lines 592-603).  On success the
result carries the parsed JSON value together with the log lines printed; an
exception the `except` clause does not list propagates to the caller
(`Except.error`). -/
def load_active_downloads (file : FileState) :
    Except ReadError (JVal × List String) :=
  match file with
  | .absent => .ok (.obj [], [])
  | .content raw =>
      match open_and_decode raw with
      | .ok j => .ok (j, ["[INFO] Loaded active download(s) from persistence file"])
      | .error e =>
          if caught_by_load e then
            .ok (.obj [],
              ["[ERROR] Could not read or parse persistence file. Starting fresh."])
          else .error e

/-! ## File-system traces for `save_active_downloads`

`save_active_downloads` writes with `open(file_path, 'w')` followed by
`json.dump`: opening with mode `'w'` truncates the file in place, and the dump
then writes the new bytes.  The write behaviour is embedded as a trace of
file-system operations over a map from paths to file contents. -/

inductive FsOp : Type where
  | openTrunc : String → FsOp
  | writeAll : String → RawContent → FsOp
  | rename : String → String → FsOp

/-- A file system: contents by path (`none` = absent). -/
def Fs : Type := String → Option RawContent

def applyOp (fs : Fs) : FsOp → Fs
  | .openTrunc p => fun q => if q = p then some (.malformed "") else fs q
  | .writeAll p c => fun q => if q = p then some c else fs q
  | .rename src dst => fun q =>
      if q = dst then fs src else if q = src then none else fs q

/-- All states a file system passes through while running a list of operations
(the initial state included). -/
def fsStates (fs : Fs) : List FsOp → List Fs
  | [] => [fs]
  | op :: ops => fs :: fsStates (applyOp fs op) ops

def runOps (fs : Fs) (ops : List FsOp) : Fs := ops.foldl applyOp fs

/-- The operations `save_active_downloads` performs on the file system (lines
586-587): truncate the persistence file in place, then write the serialized
active set.  The freshly truncated file holds zero bytes, which parse as
nothing (`malformed ""`). -/
def save_active_downloads_fsops (path : String) (active : ActiveSet) : List FsOp :=
  [.openTrunc path, .writeAll path (.jsonContent (save_active_downloads active))]

/-- Modelled from the spec: a save of `active` to `path` is atomic when, at
every point of its operation sequence, the persistence path holds either the
full old content or the full new content — "written atomically
(write-whole-file-then-replace, or equivalent)", so that at no intermediate
point does the file hold partially-written content. -/
def save_is_atomic (path : String) (active : ActiveSet) (fs : Fs) : Prop :=
  ∀ fs' ∈ fsStates fs (save_active_downloads_fsops path active),
    fs' path = fs path ∨
    fs' path = some (.jsonContent (save_active_downloads active))

/-! ## Association-list primitives for the `active_downloads` dict -/

/-- `d[k] = v` on a Python dict: replace the entry if the key is present,
otherwise append it. -/
def updateKey (k : String) (v : α) : List (String × α) → List (String × α)
  | [] => [(k, v)]
  | kv :: rest => if kv.1 = k then (k, v) :: rest else kv :: updateKey k v rest

/-- `del d[k]` on a Python dict (the key occurs at most once). -/
def eraseKey (k : String) : List (String × α) → List (String × α)
  | [] => []
  | kv :: rest => if kv.1 = k then rest else kv :: eraseKey k rest

/-- `k in d` on a Python dict. -/
def hasKey (k : String) (l : List (String × α)) : Prop := k ∈ l.map Prod.fst

instance (k : String) (l : List (String × α)) : Decidable (hasKey k l) := by
  unfold hasKey; infer_instance

/-! ## Cancellation semantics (claim C1)

`download_with_progress` (`download_torrent.py`) catches `CancelledError` at
both suspension points — the metadata wait (lines 32-40) and the transfer loop
(lines 65-72) — and branches on the live `bot_data['is_shutting_down']` flag:
user cancel removes the torrent with `lt.session.delete_files`, shutdown cancel
removes it plainly, and both re-raise.  `download_task_wrapper`
(`telegram_bot.py`) then catches the re-raised `CancelledError` (lines
1838-1853): during shutdown it re-raises again; otherwise it reports the
cancellation and falls through.  Its `finally` block (lines 1867-1877) cleans
up only when the flag is down: it deletes the record from `active_downloads`
and rewrites the persistence file. -/

inductive RemoveMode : Type where
  | deleteFiles : RemoveMode
  | keepFiles : RemoveMode
  deriving DecidableEq

/-- The `ses.remove_torrent` variant chosen at a cancellation point
(`download_torrent.py` lines 36-39 and 68-71). -/
def cancel_remove_mode (is_shutting_down : Bool) : RemoveMode :=
  if ¬is_shutting_down then .deleteFiles else .keepFiles

/-- Does `download_task_wrapper` re-raise the cancellation (lines 1840-1842)? -/
def wrapper_reraises (is_shutting_down : Bool) : Bool := is_shutting_down

/-- The `finally` block of `download_task_wrapper` (lines 1867-1877): when the
shutdown flag is down, drop the record from the active set and persist the
reduced set; during shutdown, touch nothing. -/
def wrapper_finally (is_shutting_down : Bool) (chat_key : String)
    (active : ActiveSet) (stored : JVal) : ActiveSet × JVal :=
  if ¬is_shutting_down then
    if hasKey chat_key active then
      let active' := eraseKey chat_key active
      (active', save_active_downloads active')
    else (active, stored)
  else (active, stored)

/-- Observable outcome of one cancelled transfer task. -/
structure CancelOutcome where
  torrentInSession : Bool
  partialDataOnDisk : Bool
  reRaised : Bool
  active : ActiveSet
  stored : JVal

/-- One cancelled transfer, composed from the embedded pieces: the engine-side
branch of `download_with_progress` (remove the torrent, deleting its data only
for a user cancel), then the wrapper's `except asyncio.CancelledError` branch
and its `finally` block, with `is_shutting_down` read live at each point. -/
def run_cancelled_task (is_shutting_down : Bool) (chat_key : String)
    (active : ActiveSet) (stored : JVal) (dataOnDisk : Bool) : CancelOutcome :=
  { torrentInSession := false
    partialDataOnDisk :=
      match cancel_remove_mode is_shutting_down with
      | .deleteFiles => false
      | .keepFiles => dataOnDisk
    reRaised := wrapper_reraises is_shutting_down
    active := (wrapper_finally is_shutting_down chat_key active stored).1
    stored := (wrapper_finally is_shutting_down chat_key active stored).2 }

/-! ## Submission and registration (claim C2)

`handle_message` rejects a new submission while a record for the chat exists
(lines 1171-1173); a submission that survives validation stores a
`pending_torrent` in the per-chat `user_data` (lines 1390-1396).  The
`confirm_download` branch of `button_handler` pops the pending entry (line
1629; a press with no pending entry is ignored as expired, line 1621), builds
the record, registers it in `active_downloads` and persists (lines 1652-1665).
The cleanup path was embedded above as `wrapper_finally`. -/

structure SavePaths where
  default : String
  movies : String
  tv_shows : String

/-- Resolution of the destination directory from the classification metadata
(`button_handler` lines 1638-1650). -/
def final_save_path (paths : SavePaths) (parsed_info : JVal) : String :=
  match jGet parsed_info "type" with
  | some (.str "movie") => paths.movies
  | some (.str "tv") => paths.tv_shows
  | _ => paths.default

/-- Joint state of the supervisor: the active set, the per-chat pending
submissions, and the persisted file content. -/
structure BotState where
  active : ActiveSet
  pending : List (String × SourceDict)
  stored : JVal

def initialState : BotState := { active := [], pending := [], stored := .obj [] }

/-- `handle_message` up to step 9 for a submission that passes validation: the
guard of lines 1171-1173 rejects when a record for the chat exists (returning
`true` and leaving all state untouched, before anything is queued); otherwise
the pending slot for the chat is set. -/
def handle_submit (st : BotState) (chat_key : String) (src : SourceDict) :
    BotState × Bool :=
  if hasKey chat_key st.active then (st, true)
  else ({ st with pending := updateKey chat_key src st.pending }, false)

/-- The `confirm_download` branch of `button_handler`: pop the pending entry
(no-op when it is absent — the press is expired), build `download_data`, attach
the freshly created task, register under `str(chat_id)` and persist. -/
def handle_confirm (paths : SavePaths) (st : BotState) (chat_key : String)
    (chat_id : Int) (task_id : Nat) : BotState :=
  match lookupKey chat_key st.pending with
  | none => st
  | some p =>
      let dd : DownloadData :=
        { source_dict := p
          chat_id := chat_id
          message_id := p.original_message_id
          save_path := final_save_path paths p.parsed_info
          task := some task_id }
      let active' := updateKey chat_key dd st.active
      { active := active'
        pending := eraseKey chat_key st.pending
        stored := save_active_downloads active' }

/-- Terminal cleanup of a task outside shutdown (the `finally` block). -/
def handle_cleanup (st : BotState) (chat_key : String) : BotState :=
  let (active', stored') := wrapper_finally false chat_key st.active st.stored
  { st with active := active', stored := stored' }

/-- The events the supervisor state reacts to. -/
inductive BotEvent : Type where
  | submit : String → SourceDict → BotEvent
  | confirm : SavePaths → String → Int → Nat → BotEvent
  | cleanup : String → BotEvent

def botStep (st : BotState) : BotEvent → BotState
  | .submit chat_key src => (handle_submit st chat_key src).1
  | .confirm paths chat_key chat_id task_id =>
      handle_confirm paths st chat_key chat_id task_id
  | .cleanup chat_key => handle_cleanup st chat_key

def botRun (st : BotState) (evs : List BotEvent) : BotState :=
  evs.foldl botStep st

/-- States reachable from startup. -/
inductive Reachable : BotState → Prop where
  | init : Reachable initialState
  | step : ∀ {st ev}, Reachable st → Reachable (botStep st ev)

/-! ## Shutdown sequence (claim C7)

`post_shutdown` (`telegram_bot.py` lines 621-644) is embedded as the trace of
its externally visible actions, in program order: it sets
`bot_data['is_shutting_down'] = True` (line 626), collects every record whose
task exists and is not done (lines 630-634), requests cancellation of each
(lines 640-641), and finally awaits them all with `asyncio.gather` (line 643);
with nothing to cancel it returns right after setting the flag (lines
636-638). -/

inductive ShutdownAction : Type where
  | setFlag : ShutdownAction
  | cancelTask : Nat → ShutdownAction
  | awaitAll : List Nat → ShutdownAction
  deriving DecidableEq

/-- A task handle as stored in a record: its id and whether `task.done()`. -/
abbrev TaskRef := Nat × Bool

/-- The tasks `post_shutdown` selects for cancellation: those present and not
done, in iteration order of the active dict. -/
def tasks_to_cancel (tasks : List (Option TaskRef)) : List Nat :=
  ((tasks.filterMap id).filter (fun t => !t.2)).map Prod.fst

/-- The action trace of `post_shutdown`, given the task field of every record
of the active set. -/
def post_shutdown_trace (tasks : List (Option TaskRef)) : List ShutdownAction :=
  let toCancel := tasks_to_cancel tasks
  if toCancel.isEmpty then [.setFlag]
  else .setFlag :: (toCancel.map .cancelTask ++ [.awaitAll toCancel])

/-- The value of the shutdown flag an action at position `i` of a trace
observes: `true` exactly when a `setFlag` precedes it. -/
def flag_before (trace : List ShutdownAction) (i : Nat) : Prop :=
  .setFlag ∈ trace.take i

instance (trace : List ShutdownAction) (i : Nat) : Decidable (flag_before trace i) := by
  unfold flag_before; infer_instance

/-! ## File priorities (claim C10)

Once metadata is available, `download_with_progress` (lines 42-56) builds a
priority list over the torrent's files — `1` when the file's lower-cased
extension is in `allowed_extensions`, `0` otherwise — and hands it to
`handle.prioritize_files`, so the engine fetches only allowed-extension
files. -/

/-- The priority-building loop of `download_with_progress` lines 46-55. -/
def build_priorities (allowed : List String) : List String → List Nat
  | [] => []
  | p :: rest =>
      (if strLower (splitext_ext p) ∈ allowed then 1 else 0) ::
        build_priorities allowed rest

/-! ## Association-list lemmas (the dict discipline of `active_downloads`) -/

theorem hasKey_cons {α : Type} {k : String} {kv : String × α} {l : List (String × α)} :
    hasKey k (kv :: l) ↔ kv.1 = k ∨ hasKey k l := by
  simp [hasKey, eq_comm]

theorem lookupKey_isSome_iff {α : Type} (k : String) (l : List (String × α)) :
    (lookupKey k l).isSome ↔ hasKey k l := by
  induction l with
  | nil => simp [lookupKey, hasKey]
  | cons kv rest ih =>
      by_cases h : kv.1 = k
      · simp [lookupKey, h, hasKey_cons]
      · simp only [lookupKey, if_neg h, hasKey_cons, ih]
        tauto

theorem lookupKey_eq_none_iff {α : Type} (k : String) (l : List (String × α)) :
    lookupKey k l = none ↔ ¬ hasKey k l := by
  rw [← lookupKey_isSome_iff, Option.isSome_iff_exists]
  cases lookupKey k l <;> simp

theorem lookupKey_updateKey_self {α : Type} (k : String) (v : α)
    (l : List (String × α)) : lookupKey k (updateKey k v l) = some v := by
  induction l with
  | nil => simp [updateKey, lookupKey]
  | cons kv rest ih =>
      by_cases h : kv.1 = k
      · simp [updateKey, h, lookupKey]
      · simp [updateKey, h, lookupKey, ih]

theorem hasKey_updateKey {α : Type} (a k : String) (v : α) (l : List (String × α)) :
    hasKey a (updateKey k v l) ↔ a = k ∨ hasKey a l := by
  induction l with
  | nil => simp [updateKey, hasKey, eq_comm]
  | cons kv rest ih =>
      by_cases h : kv.1 = k
      · subst h
        rw [updateKey, if_pos rfl]
        simp only [hasKey_cons]
        constructor
        · rintro (h1 | h1)
          · exact Or.inl h1.symm
          · exact Or.inr (Or.inr h1)
        · rintro (h1 | h1 | h1)
          · exact Or.inl h1.symm
          · exact Or.inl h1
          · exact Or.inr h1
      · simp only [updateKey, if_neg h, hasKey_cons, ih]
        tauto

theorem nodup_updateKey {α : Type} {k : String} {v : α} {l : List (String × α)}
    (h : (l.map Prod.fst).Nodup) : ((updateKey k v l).map Prod.fst).Nodup := by
  induction l with
  | nil => simp [updateKey]
  | cons kv rest ih =>
      simp only [List.map_cons, List.nodup_cons] at h
      by_cases hk : kv.1 = k
      · rw [updateKey, if_pos hk]
        simp only [List.map_cons, List.nodup_cons]
        refine ⟨?_, h.2⟩
        intro hmem
        exact h.1 (hk ▸ hmem)
      · simp only [updateKey, if_neg hk, List.map_cons, List.nodup_cons]
        refine ⟨?_, ih h.2⟩
        intro hmem
        rcases (hasKey_updateKey kv.1 k v rest).mp hmem with h1 | h2
        · exact hk h1
        · exact h.1 h2

theorem eraseKey_sublist {α : Type} (k : String) (l : List (String × α)) :
    List.Sublist (eraseKey k l) l := by
  induction l with
  | nil => simp [eraseKey]
  | cons kv rest ih =>
      by_cases h : kv.1 = k
      · simp only [eraseKey, if_pos h]
        exact List.sublist_cons_self kv rest
      · simpa [eraseKey, h] using ih.cons₂ kv

theorem nodup_eraseKey {α : Type} {k : String} {l : List (String × α)}
    (h : (l.map Prod.fst).Nodup) : ((eraseKey k l).map Prod.fst).Nodup :=
  ((eraseKey_sublist k l).map Prod.fst).nodup h

theorem lookupKey_eraseKey_self {α : Type} {k : String} {l : List (String × α)}
    (h : (l.map Prod.fst).Nodup) : lookupKey k (eraseKey k l) = none := by
  induction l with
  | nil => simp [eraseKey, lookupKey]
  | cons kv rest ih =>
      simp only [List.map_cons, List.nodup_cons] at h
      by_cases hk : kv.1 = k
      · subst hk
        rw [eraseKey, if_pos rfl, lookupKey_eq_none_iff]
        exact h.1
      · simp only [eraseKey, if_neg hk, lookupKey, if_neg hk]
        exact ih h.2

theorem not_hasKey_eraseKey {α : Type} {k : String} {l : List (String × α)}
    (h : (l.map Prod.fst).Nodup) : ¬ hasKey k (eraseKey k l) :=
  (lookupKey_eq_none_iff k (eraseKey k l)).mp (lookupKey_eraseKey_self h)

theorem lookupKey_map_val {α β : Type} (k : String) (f : α → β)
    (l : List (String × α)) :
    lookupKey k (l.map (fun kv => (kv.1, f kv.2))) = (lookupKey k l).map f := by
  induction l with
  | nil => simp [lookupKey]
  | cons kv rest ih =>
      by_cases h : kv.1 = k <;> simp [lookupKey, h, ih]

theorem jGet_save_active_downloads (k : String) (l : ActiveSet) :
    jGet (save_active_downloads l) k = (lookupKey k l).map encodeData := by
  simp [save_active_downloads, jGet, lookupKey_map_val]

/-! ## Claim C5 — byte-formatter boundary values -/

/-- C5, counterexample: the claim states that the formatter returns `"1023B"`
on input `1023` (and `"1 KB"` on input `1024`); in the code the format string
`f"{s} {size_name[i]}"` renders the rounded float, so `1023` yields
`"1023.0 B"`, not `"1023B"`. -/
theorem format_bytes_boundary_counterexample :
    ¬ (format_bytes 1023 = "1023B" ∧ format_bytes 1024 = "1 KB") := by
  intro h
  have : format_bytes 1023 = "1023.0 B" := by decide
  rw [this] at h
  exact absurd h.1 (by decide)

/-- C5, amended: the human-readable byte formatter maps byte counts at unit
boundaries as the code renders them: input `1023` returns the string
`"1023.0 B"`, and input `1024` returns the string `"1.0 KB"`. -/
theorem format_bytes_boundary_values :
    format_bytes 1023 = "1023.0 B" ∧ format_bytes 1024 = "1.0 KB" := by
  constructor <;> decide

/-! ## Claim C4 — total-size policy boundary -/

/-- C4: the size policy rejects a manifest exactly when its total size strictly
exceeds `MAX_TORRENT_SIZE_BYTES`; a total equal to the maximum is accepted, and
every rejection reason contains the human-readable rendering of the manifest
total and the human-readable limit string `"10 GB"`. -/
theorem size_check_boundary (t : Nat) :
    (size_check t = none ↔ t ≤ MAX_TORRENT_SIZE_BYTES) ∧
    (t > MAX_TORRENT_SIZE_BYTES →
      ∃ r, size_check t = some r ∧ containsStr r (format_bytes t) ∧
        containsStr r (toString MAX_TORRENT_SIZE_GB ++ " GB")) := by
  constructor
  · constructor
    · intro h
      by_contra hlt
      push_neg at hlt
      simp [size_check, hlt] at h
    · intro h
      simp [size_check, Nat.not_lt.mpr h]
  · intro h
    refine ⟨sizeLimitMsg t, by simp [size_check, h], ?_, ?_⟩
    · refine ⟨"This torrent is *",
        "*, which is larger than the *" ++ toString MAX_TORRENT_SIZE_GB ++ " GB* limit.",
        ?_⟩
      simp only [sizeLimitMsg, String.append_assoc]
    · refine ⟨"This torrent is *" ++ format_bytes t ++ "*, which is larger than the *",
        "* limit.", ?_⟩
      have hsplit : (" GB* limit." : String) = " GB" ++ "* limit." := by decide
      simp only [sizeLimitMsg, hsplit, String.append_assoc]

/-- C4 witness: the boundary instances — a total of exactly
`MAX_TORRENT_SIZE_BYTES` passes, one byte more is rejected with a reason
containing both size strings. -/
theorem size_check_boundary_witness :
    (size_check MAX_TORRENT_SIZE_BYTES = none) ∧
    (∃ r, size_check (MAX_TORRENT_SIZE_BYTES + 1) = some r ∧
      containsStr r (format_bytes (MAX_TORRENT_SIZE_BYTES + 1)) ∧
      containsStr r (toString MAX_TORRENT_SIZE_GB ++ " GB")) :=
  ⟨(size_check_boundary MAX_TORRENT_SIZE_BYTES).1.mpr (by decide),
   (size_check_boundary (MAX_TORRENT_SIZE_BYTES + 1)).2 (by decide)⟩

/-! ## Claim C9 — loading never fails startup -/

/-- C9, counterexample: the claim says malformed (unparseable or unreadable)
content never fails startup, but a persistence file whose bytes are not valid
UTF-8 makes the text-mode read inside `json.load` raise `UnicodeDecodeError`,
which the `except (json.JSONDecodeError, IOError)` clause does not catch: the
load raises instead of returning an empty active set. -/
theorem load_never_fails_counterexample :
    load_active_downloads (.content .notUtf8)
        = .error .unicodeDecodeError ∧
    ∀ j logs, load_active_downloads (.content .notUtf8)
        ≠ .ok (j, logs) := by
  refine ⟨rfl, fun j logs h => ?_⟩
  simp [load_active_downloads, open_and_decode, caught_by_load] at h

/-- C9, amended: loading tolerates a missing file (empty active set, not an
error) and tolerates content raising the two listed exception classes —
text that does not parse as JSON (`JSONDecodeError`) and content that cannot
be read (`IOError`) — logging the problem and returning the empty active set;
but content whose bytes are not valid UTF-8 raises `UnicodeDecodeError`, which
is not caught and propagates, failing startup. -/
theorem load_failure_modes :
    load_active_downloads .absent = .ok (JVal.obj [], []) ∧
    (∀ s, load_active_downloads (.content (.malformed s))
        = .ok (JVal.obj [],
            ["[ERROR] Could not read or parse persistence file. Starting fresh."])) ∧
    load_active_downloads (.content .unreadable)
        = .ok (JVal.obj [],
            ["[ERROR] Could not read or parse persistence file. Starting fresh."]) ∧
    load_active_downloads (.content .notUtf8)
        = .error .unicodeDecodeError :=
  ⟨rfl, fun _ => rfl, rfl, rfl⟩

/-! ## Claim C3 — two-tier file-type policy -/

theorem first_large_bad_eq_none_iff (l : List FileEntry) :
    first_large_bad l = none ↔ ∀ e ∈ l, ¬ (substantial e ∧ badExt e.1) := by
  induction l with
  | nil => simp [first_large_bad]
  | cons e rest ih =>
      by_cases h : substantial e ∧ badExt e.1
      · simp only [first_large_bad, if_pos h]
        constructor
        · intro hc
          exact absurd hc (by simp)
        · intro hall
          exact absurd h (hall e (List.mem_cons_self e rest))
      · simp only [first_large_bad, if_neg h]
        rw [ih]
        constructor
        · intro hrest x hx
          rcases List.mem_cons.mp hx with h1 | h1
          · exact h1 ▸ h
          · exact hrest x h1
        · intro hall x hx
          exact hall x (List.mem_cons_of_mem e hx)

theorem first_large_bad_isSome_iff (l : List FileEntry) :
    (first_large_bad l).isSome ↔ ∃ e ∈ l, substantial e ∧ badExt e.1 := by
  induction l with
  | nil => simp [first_large_bad]
  | cons e rest ih =>
      by_cases h : substantial e ∧ badExt e.1
      · simp only [first_large_bad, if_pos h, Option.isSome_some, true_iff]
        exact ⟨e, List.mem_cons_self e rest, h⟩
      · simp only [first_large_bad, if_neg h]
        rw [ih]
        constructor
        · rintro ⟨x, hx, hc⟩
          exact ⟨x, List.mem_cons_of_mem e hx, hc⟩
        · rintro ⟨x, hx, hc⟩
          rcases List.mem_cons.mp hx with h1 | h1
          · exact absurd (h1 ▸ hc) h
          · exact ⟨x, h1, hc⟩

theorem largest_file_aux_mem (l : List FileEntry) (b : FileEntry) :
    largest_file_aux l b = b ∨ largest_file_aux l b ∈ l := by
  induction l generalizing b with
  | nil => exact Or.inl rfl
  | cons e rest ih =>
      by_cases h : e.2 > b.2
      · rw [largest_file_aux, if_pos h]
        rcases ih e with h1 | h1
        · exact Or.inr (by rw [h1]; exact List.mem_cons_self e rest)
        · exact Or.inr (List.mem_cons_of_mem e h1)
      · rw [largest_file_aux, if_neg h]
        rcases ih b with h1 | h1
        · exact Or.inl h1
        · exact Or.inr (List.mem_cons_of_mem e h1)

theorem largest_file_aux_ge (l : List FileEntry) (b : FileEntry) :
    b.2 ≤ (largest_file_aux l b).2 ∧ ∀ e ∈ l, e.2 ≤ (largest_file_aux l b).2 := by
  induction l generalizing b with
  | nil => exact ⟨le_refl _, by simp⟩
  | cons e rest ih =>
      by_cases h : e.2 > b.2
      · rw [largest_file_aux, if_pos h]
        refine ⟨le_trans (le_of_lt h) (ih e).1, ?_⟩
        intro x hx
        rcases List.mem_cons.mp hx with h1 | h1
        · exact h1 ▸ (ih e).1
        · exact (ih e).2 x h1
      · rw [largest_file_aux, if_neg h]
        refine ⟨(ih b).1, ?_⟩
        intro x hx
        rcases List.mem_cons.mp hx with h1 | h1
        · exact h1 ▸ le_trans (Nat.le_of_not_lt h) (ih b).1
        · exact (ih b).2 x h1

theorem largest_file_mem {files : List FileEntry} (hne : files ≠ []) :
    largest_file files ∈ files := by
  match files with
  | [] => exact absurd rfl hne
  | e :: rest =>
      rw [largest_file]
      rcases largest_file_aux_mem rest e with h1 | h1
      · rw [h1]
        exact List.mem_cons_self e rest
      · exact List.mem_cons_of_mem e h1

theorem le_largest_file {files : List FileEntry} (e : FileEntry)
    (he : e ∈ files) : e.2 ≤ (largest_file files).2 := by
  match files with
  | [] => simp at he
  | q :: rest =>
      rw [largest_file]
      rcases List.mem_cons.mp he with h1 | h1
      · exact h1 ▸ (largest_file_aux_ge rest q).1
      · exact (largest_file_aux_ge rest q).2 e h1

/-- C3: for a non-empty manifest, the file-type validator rejects exactly when
some substantial entry (strictly over the fixed 10MB floor) has an extension
outside the allowlist, or no entry is substantial and the largest entry's
extension is outside the allowlist; `largest_file` really is a maximal entry of
the manifest.  In particular, a 600MB allowed file next to a 2MB disallowed
file passes, while a 50MB disallowed file is rejected even next to a 600MB
allowed file. -/
theorem validate_torrent_files_two_tier :
    (∀ files : List FileEntry, files ≠ [] →
      ((validate_torrent_files files).isSome ↔
        (∃ e ∈ files, substantial e ∧ badExt e.1) ∨
          ((∀ e ∈ files, ¬ substantial e) ∧ badExt (largest_file files).1)) ∧
      largest_file files ∈ files ∧
      (∀ e ∈ files, e.2 ≤ (largest_file files).2)) ∧
    validate_torrent_files
        [("movie.mkv", 600 * 1024 * 1024), ("sample.txt", 2 * 1024 * 1024)]
      = none ∧
    (validate_torrent_files
        [("movie.mkv", 600 * 1024 * 1024), ("extra.avi", 50 * 1024 * 1024)]).isSome := by
  refine ⟨?_, by decide, by decide⟩
  intro files hne
  refine ⟨?_, largest_file_mem hne, fun e he => le_largest_file e he⟩
  have hlen : ¬ files.length = 0 := by
    simpa [List.length_eq_zero] using hne
  rw [validate_torrent_files, if_neg hlen]
  cases hfb : first_large_bad files with
  | some r =>
      simp only [Option.isSome_some, true_iff]
      left
      exact (first_large_bad_isSome_iff files).mp (by rw [hfb]; rfl)
  | none =>
      have hall := (first_large_bad_eq_none_iff files).mp hfb
      by_cases hany : files.any (fun e => decide (substantial e)) = true
      · rw [if_pos hany]
        simp only [Option.isSome_none, Bool.false_eq_true, false_iff]
        rintro (⟨e, he, hc⟩ | ⟨hnone, _⟩)
        · exact hall e he hc
        · rcases List.any_eq_true.mp hany with ⟨e, he, hd⟩
          exact hnone e he (of_decide_eq_true hd)
      · rw [if_neg hany]
        have hnosub : ∀ e ∈ files, ¬ substantial e := by
          intro e he hs
          exact hany (List.any_eq_true.mpr ⟨e, he, decide_eq_true hs⟩)
        by_cases hbad : badExt (largest_file files).1
        · rw [if_pos hbad]
          simp only [Option.isSome_some, true_iff]
          exact Or.inr ⟨hnosub, hbad⟩
        · rw [if_neg hbad]
          simp only [Option.isSome_none, Bool.false_eq_true, false_iff]
          rintro (⟨e, he, hc⟩ | ⟨_, hb⟩)
          · exact hnosub e he hc.1
          · exact hbad hb

/-- The manifest of the accepted example: a 600MB `.mkv` next to a 2MB `.txt`. -/
def exampleManifest : List FileEntry :=
  [("movie.mkv", 600 * 1024 * 1024), ("sample.txt", 2 * 1024 * 1024)]

/-- C3 witness: the characterization instantiated at the concrete two-file
manifest. -/
theorem validate_torrent_files_two_tier_witness :
    ((validate_torrent_files exampleManifest).isSome ↔
      (∃ e ∈ exampleManifest, substantial e ∧ badExt e.1) ∨
        ((∀ e ∈ exampleManifest, ¬ substantial e) ∧
          badExt (largest_file exampleManifest).1)) ∧
    largest_file exampleManifest ∈ exampleManifest ∧
    (∀ e ∈ exampleManifest, e.2 ≤ (largest_file exampleManifest).2) :=
  validate_torrent_files_two_tier.1 exampleManifest (by decide)

/-! ## Claim C8 — persistence round-trip -/

theorem decodeSource_encodeSource (s : SourceDict) :
    decodeSource (encodeSource s) = some s := by
  obtain ⟨ty, va, cn, pi, om⟩ := s
  cases ty <;> cases va <;> rfl

theorem decodeData_encodeData (d : DownloadData) :
    decodeData (encodeData d) = some { d with task := none } := by
  obtain ⟨s, ci, mi, sp, tk⟩ := d
  obtain ⟨ty, va, cn, pi, om⟩ := s
  cases ty <;> cases va <;> rfl

theorem decodeEntries_encode (l : ActiveSet) :
    decodeEntries (l.map (fun kv => (kv.1, encodeData kv.2)))
      = some (l.map (fun kv => (kv.1, { kv.2 with task := none }))) := by
  induction l with
  | nil => rfl
  | cons kv rest ih =>
      simp [decodeEntries, decodeData_encodeData, ih]

/-- C8: loading the file produced by save reconstructs the active set exactly,
record for record — the same session identifiers in the same order and, under
each identifier, the same descriptor (source type and value), destination path
and display metadata — with only the non-serializable running-task reference
stripped (`task := none`). -/
theorem save_load_roundtrip (a : ActiveSet) :
    load_active_downloads (.content (.jsonContent (save_active_downloads a)))
        = .ok (save_active_downloads a,
            ["[INFO] Loaded active download(s) from persistence file"]) ∧
    decodeActive (save_active_downloads a)
      = some (a.map (fun kv => (kv.1, { kv.2 with task := none }))) := by
  refine ⟨rfl, ?_⟩
  simp only [save_active_downloads, decodeActive]
  exact decodeEntries_encode a

/-- An example active set with one registered transfer, keyed by the chat. -/
def exampleData : DownloadData :=
  { source_dict :=
      { type := some "magnet"
        value := some "magnet:?xt=urn:btih:aaaa"
        clean_name := "Some Movie (2020)"
        parsed_info := .obj [("type", .str "movie")]
        original_message_id := 5 }
    chat_id := 123
    message_id := 5
    save_path := "/downloads/movies"
    task := some 7 }

def exampleActive : ActiveSet := [("123", exampleData)]

/-! ## Claim C2 -- at most one active record per session identifier -/

/-- Every reachable supervisor state keeps the keys of the active set and of
the pending map free of duplicates (the dict discipline). -/
theorem reachable_keys_nodup {st : BotState} (h : Reachable st) :
    (st.active.map Prod.fst).Nodup ∧ (st.pending.map Prod.fst).Nodup := by
  induction h with
  | init => exact ⟨List.nodup_nil, List.nodup_nil⟩
  | @step st ev _ ih =>
      cases ev with
      | submit ck src =>
          simp only [botStep, handle_submit]
          by_cases hk : hasKey ck st.active
          · rw [if_pos hk]
            exact ih
          · rw [if_neg hk]
            exact ⟨ih.1, nodup_updateKey ih.2⟩
      | confirm paths ck cid tid =>
          simp only [botStep, handle_confirm]
          cases hl : lookupKey ck st.pending with
          | none => exact ih
          | some p => exact ⟨nodup_updateKey ih.1, nodup_eraseKey ih.2⟩
      | cleanup ck =>
          by_cases hk : hasKey ck st.active
          · have hw : wrapper_finally false ck st.active st.stored
                = (eraseKey ck st.active,
                    save_active_downloads (eraseKey ck st.active)) := by
              unfold wrapper_finally
              rw [if_pos (by simp), if_pos hk]
            simp only [botStep, handle_cleanup, hw]
            exact ⟨nodup_eraseKey ih.1, ih.2⟩
          · have hw : wrapper_finally false ck st.active st.stored
                = (st.active, st.stored) := by
              unfold wrapper_finally
              rw [if_pos (by simp), if_neg hk]
            simp only [botStep, handle_cleanup, hw]
            exact ih

/-- C2: (a) a submission for a chat that already has an active record is
rejected with the state untouched, before anything is queued; (b) in every
reachable state the active set holds at most one record per session
identifier; (c) of two racing submissions for the same identifier that both
pass the guard, the single pending slot admits only one registration — the
first confirmation registers the transfer and the second finds no pending
entry and leaves the state unchanged. -/
theorem at_most_one_active_record :
    (∀ (st : BotState) (chat_key : String) (src : SourceDict),
      hasKey chat_key st.active → handle_submit st chat_key src = (st, true)) ∧
    (∀ st : BotState, Reachable st → ∀ chat_key : String,
      (st.active.map Prod.fst).count chat_key ≤ 1) ∧
    (∀ (paths : SavePaths) (st : BotState) (chat_key : String)
        (s1 s2 : SourceDict) (c1 c2 : Int) (t1 t2 : Nat),
      (st.pending.map Prod.fst).Nodup →
      ¬ hasKey chat_key st.active →
      (handle_submit st chat_key s1).2 = false ∧
      (handle_submit (handle_submit st chat_key s1).1 chat_key s2).2 = false ∧
      (lookupKey chat_key (handle_confirm paths
          (handle_submit (handle_submit st chat_key s1).1 chat_key s2).1
          chat_key c1 t1).active).isSome ∧
      handle_confirm paths
          (handle_confirm paths
            (handle_submit (handle_submit st chat_key s1).1 chat_key s2).1
            chat_key c1 t1)
          chat_key c2 t2
        = handle_confirm paths
            (handle_submit (handle_submit st chat_key s1).1 chat_key s2).1
            chat_key c1 t1) := by
  refine ⟨?_, ?_, ?_⟩
  · intro st chat_key src h
    unfold handle_submit
    rw [if_pos h]
  · intro st h chat_key
    exact List.nodup_iff_count_le_one.mp (reachable_keys_nodup h).1 chat_key
  · intro paths st ck s1 s2 c1 c2 t1 t2 hnd hno
    have hs1 : handle_submit st ck s1
        = ({ st with pending := updateKey ck s1 st.pending }, false) := by
      unfold handle_submit
      rw [if_neg hno]
    have hs2 : handle_submit
        ({ st with pending := updateKey ck s1 st.pending } : BotState) ck s2
        = ({ st with pending := updateKey ck s2 (updateKey ck s1 st.pending) },
            false) := by
      unfold handle_submit
      rw [if_neg hno]
    have hnd2 : ((updateKey ck s2 (updateKey ck s1 st.pending)).map
        Prod.fst).Nodup := nodup_updateKey (nodup_updateKey hnd)
    have hc1 : handle_confirm paths
        ({ st with pending := updateKey ck s2 (updateKey ck s1 st.pending) }
          : BotState) ck c1 t1
        = { active := updateKey ck
              { source_dict := s2, chat_id := c1,
                message_id := s2.original_message_id,
                save_path := final_save_path paths s2.parsed_info,
                task := some t1 } st.active,
            pending := eraseKey ck (updateKey ck s2 (updateKey ck s1 st.pending)),
            stored := save_active_downloads (updateKey ck
              { source_dict := s2, chat_id := c1,
                message_id := s2.original_message_id,
                save_path := final_save_path paths s2.parsed_info,
                task := some t1 } st.active) } := by
      unfold handle_confirm
      dsimp only
      rw [lookupKey_updateKey_self]
    refine ⟨by rw [hs1], ?_, ?_, ?_⟩
    · rw [hs1]
      exact congrArg Prod.snd hs2
    · rw [hs1]
      dsimp only
      rw [hs2]
      dsimp only
      rw [hc1]
      dsimp only
      rw [lookupKey_updateKey_self]
      rfl
    · rw [hs1]
      dsimp only
      rw [hs2]
      dsimp only
      rw [hc1]
      unfold handle_confirm
      dsimp only
      rw [lookupKey_eraseKey_self hnd2]

/-- C2 witness: from the initial state, two racing submissions for chat `123`
followed by two confirmation presses register exactly one transfer. -/
theorem at_most_one_active_record_witness :
    (handle_submit initialState "123" exampleData.source_dict).2 = false ∧
    (handle_submit (handle_submit initialState "123" exampleData.source_dict).1
        "123" exampleData.source_dict).2 = false ∧
    (lookupKey "123" (handle_confirm
        ⟨"/dl", "/dl/movies", "/dl/tv"⟩
        (handle_submit (handle_submit initialState "123"
            exampleData.source_dict).1 "123" exampleData.source_dict).1
        "123" 123 7).active).isSome ∧
    handle_confirm ⟨"/dl", "/dl/movies", "/dl/tv"⟩
        (handle_confirm ⟨"/dl", "/dl/movies", "/dl/tv"⟩
          (handle_submit (handle_submit initialState "123"
              exampleData.source_dict).1 "123" exampleData.source_dict).1
          "123" 123 7)
        "123" 124 8
      = handle_confirm ⟨"/dl", "/dl/movies", "/dl/tv"⟩
          (handle_submit (handle_submit initialState "123"
              exampleData.source_dict).1 "123" exampleData.source_dict).1
          "123" 123 7 :=
  at_most_one_active_record.2.2 ⟨"/dl", "/dl/movies", "/dl/tv"⟩ initialState "123"
    exampleData.source_dict exampleData.source_dict 123 124 7 8
    List.nodup_nil (by simp [initialState, hasKey])

/-! ## Claim C1 — two cancellation semantics, branched on the live flag -/

/-- C1: a transfer cancelled while waiting for metadata or while transferring
branches on the shutdown flag read when the cancellation is observed.  The
torrent is removed from the session either way.  With the flag down (user
cancel) the partial data is deleted, the cancellation is absorbed after
notifying the user, and cleanup removes the record from the active set and
from the persisted store.  With the flag up (shutdown cancel) the partial data
survives, the cancellation is re-raised, and the stored record is untouched —
still present in the persisted store. -/
theorem cancellation_two_semantics (flag : Bool) (chat_key : String)
    (active : ActiveSet) (dataOnDisk : Bool)
    (hmem : hasKey chat_key active)
    (hnd : (active.map Prod.fst).Nodup) :
    (run_cancelled_task flag chat_key active (save_active_downloads active)
        dataOnDisk).torrentInSession = false ∧
    (flag = false →
      (run_cancelled_task flag chat_key active (save_active_downloads active)
          dataOnDisk).partialDataOnDisk = false ∧
      (run_cancelled_task flag chat_key active (save_active_downloads active)
          dataOnDisk).reRaised = false ∧
      ¬ hasKey chat_key (run_cancelled_task flag chat_key active
          (save_active_downloads active) dataOnDisk).active ∧
      (run_cancelled_task flag chat_key active (save_active_downloads active)
          dataOnDisk).stored = save_active_downloads (eraseKey chat_key active) ∧
      jGet (run_cancelled_task flag chat_key active (save_active_downloads active)
          dataOnDisk).stored chat_key = none) ∧
    (flag = true →
      (run_cancelled_task flag chat_key active (save_active_downloads active)
          dataOnDisk).partialDataOnDisk = dataOnDisk ∧
      (run_cancelled_task flag chat_key active (save_active_downloads active)
          dataOnDisk).reRaised = true ∧
      (run_cancelled_task flag chat_key active (save_active_downloads active)
          dataOnDisk).stored = save_active_downloads active ∧
      jGet (run_cancelled_task flag chat_key active (save_active_downloads active)
          dataOnDisk).stored chat_key ≠ none) := by
  refine ⟨rfl, ?_, ?_⟩
  · rintro rfl
    have hw : wrapper_finally false chat_key active (save_active_downloads active)
        = (eraseKey chat_key active,
            save_active_downloads (eraseKey chat_key active)) := by
      unfold wrapper_finally
      rw [if_pos (by simp), if_pos hmem]
    refine ⟨rfl, rfl, ?_, ?_, ?_⟩
    · simp only [run_cancelled_task, hw]
      exact not_hasKey_eraseKey hnd
    · simp only [run_cancelled_task, hw]
    · simp only [run_cancelled_task, hw]
      rw [jGet_save_active_downloads, lookupKey_eraseKey_self hnd]
      rfl
  · rintro rfl
    have hw : wrapper_finally true chat_key active (save_active_downloads active)
        = (active, save_active_downloads active) := by
      unfold wrapper_finally
      rw [if_neg (by simp)]
    refine ⟨rfl, rfl, ?_, ?_⟩
    · simp only [run_cancelled_task, hw]
    · simp only [run_cancelled_task, hw]
      rw [jGet_save_active_downloads]
      have hsome := (lookupKey_isSome_iff chat_key active).mpr hmem
      rcases Option.isSome_iff_exists.mp hsome with ⟨d, hd⟩
      rw [hd]
      simp

/-- C1 witness: a concrete user-initiated cancellation (flag down) on a
one-record active set. -/
theorem cancellation_two_semantics_witness :
    (run_cancelled_task false "123" exampleActive
        (save_active_downloads exampleActive) true).torrentInSession = false ∧
    (false = false →
      (run_cancelled_task false "123" exampleActive
          (save_active_downloads exampleActive) true).partialDataOnDisk = false ∧
      (run_cancelled_task false "123" exampleActive
          (save_active_downloads exampleActive) true).reRaised = false ∧
      ¬ hasKey "123" (run_cancelled_task false "123" exampleActive
          (save_active_downloads exampleActive) true).active ∧
      (run_cancelled_task false "123" exampleActive
          (save_active_downloads exampleActive) true).stored
          = save_active_downloads (eraseKey "123" exampleActive) ∧
      jGet (run_cancelled_task false "123" exampleActive
          (save_active_downloads exampleActive) true).stored "123" = none) ∧
    (false = true →
      (run_cancelled_task false "123" exampleActive
          (save_active_downloads exampleActive) true).partialDataOnDisk = true ∧
      (run_cancelled_task false "123" exampleActive
          (save_active_downloads exampleActive) true).reRaised = true ∧
      (run_cancelled_task false "123" exampleActive
          (save_active_downloads exampleActive) true).stored
          = save_active_downloads exampleActive ∧
      jGet (run_cancelled_task false "123" exampleActive
          (save_active_downloads exampleActive) true).stored "123" ≠ none) :=
  cancellation_two_semantics false "123" exampleActive true
    (by simp [exampleActive, hasKey]) (by simp [exampleActive])

/-! ## Claim C10 — per-file download priorities -/

/-- C10: the priority list built after metadata arrival has one entry per file,
and position `i` holds `1` exactly when file `i`'s lower-cased extension is in
the allowlist and `0` exactly when it is not — so only allowed-extension files
are fetched. -/
theorem build_priorities_allowlist (allowed : List String) (paths : List String) :
    (build_priorities allowed paths).length = paths.length ∧
    (∀ i p, paths.get? i = some p →
      ((build_priorities allowed paths).get? i = some 1 ↔
        strLower (splitext_ext p) ∈ allowed) ∧
      ((build_priorities allowed paths).get? i = some 0 ↔
        strLower (splitext_ext p) ∉ allowed)) := by
  constructor
  · induction paths with
    | nil => rfl
    | cons q rest ih => simp [build_priorities, ih]
  · induction paths with
    | nil => intro i p h; simp at h
    | cons q rest ih =>
        intro i p h
        cases i with
        | zero =>
            simp only [List.get?_cons_zero, Option.some_inj] at h
            subst h
            by_cases hc : strLower (splitext_ext q) ∈ allowed <;>
              simp [build_priorities, hc]
        | succ n =>
            simp only [List.get?_cons_succ] at h
            simpa [build_priorities] using ih n p h

/-! ## Claim C6 — the persistence write is not atomic -/

/-- C6, counterexample: with the persistence file holding an old serialized set,
the state right after `open(file_path, 'w')` truncates the file holds empty
(partially-written) content — neither the old nor the new full content — so the
save of the code is not atomic in the sense the claim states. -/
theorem save_not_atomic_counterexample :
    ¬ save_is_atomic "persistence.json" []
      (fun p => if p = "persistence.json" then some (.jsonContent (.obj [])) else none) := by
  intro h
  have hmem := h (applyOp
      (fun p => if p = "persistence.json" then some (.jsonContent (.obj [])) else none)
      (.openTrunc "persistence.json"))
    (by simp [save_active_downloads_fsops, fsStates])
  simp [applyOp, save_active_downloads] at hmem

/-- C6, amended: every call to save writes the serialized active set (task
reference excluded) to the fixed persistence path by truncating the file in
place and then writing the new content — the final state holds the full new
serialization, but the write is not atomic: between truncation and write the
file holds empty, partially-written content, which differs from the old and
the new full content whenever the old content was not itself empty. -/
theorem save_truncate_write_not_atomic (path : String) (active : ActiveSet)
    (fs : Fs) (hold : fs path ≠ some (.malformed "")) :
    (runOps fs (save_active_downloads_fsops path active)) path
        = some (.jsonContent (save_active_downloads active)) ∧
    ¬ save_is_atomic path active fs := by
  constructor
  · simp [runOps, save_active_downloads_fsops, applyOp]
  · intro h
    have hmem := h (applyOp fs (.openTrunc path))
      (by simp [save_active_downloads_fsops, fsStates])
    rcases hmem with h1 | h1
    · exact hold (by rw [← h1]; simp [applyOp])
    · simp [applyOp] at h1

/-- C6 witness: a concrete save over an initially absent persistence file. -/
theorem save_truncate_write_not_atomic_witness :
    (runOps (fun _ => none) (save_active_downloads_fsops "persistence.json" []))
        "persistence.json" = some (.jsonContent (save_active_downloads [])) ∧
    ¬ save_is_atomic "persistence.json" [] (fun _ => none) :=
  save_truncate_write_not_atomic "persistence.json" [] (fun _ => none)
    (by simp)

/-! ## Claim C7 — shutdown orders flag before cancellation -/

/-- A task present and not done is selected for cancellation. -/
theorem mem_tasks_to_cancel {tasks : List (Option TaskRef)} {n : Nat}
    (h : (some (n, false) : Option TaskRef) ∈ tasks) :
    n ∈ tasks_to_cancel tasks := by
  unfold tasks_to_cancel
  refine List.mem_map.mpr ⟨(n, false), ?_, rfl⟩
  refine List.mem_filter.mpr ⟨?_, by simp⟩
  exact List.mem_filterMap.mpr ⟨some (n, false), h, rfl⟩

/-- C7: in the action trace of `post_shutdown`, the shutdown flag is set first;
every cancellation request observes the flag already set (flag-then-cancel,
never the reverse); every present, non-terminal task receives a cancellation
request; and every cancellation is followed by the wait that joins all
cancelled tasks before the process exits. -/
theorem post_shutdown_flag_then_cancel (tasks : List (Option TaskRef)) :
    (post_shutdown_trace tasks).get? 0 = some .setFlag ∧
    (∀ i n, (post_shutdown_trace tasks).get? i = some (.cancelTask n) →
      flag_before (post_shutdown_trace tasks) i) ∧
    (∀ n, (some (n, false) : Option TaskRef) ∈ tasks →
      ShutdownAction.cancelTask n ∈ post_shutdown_trace tasks) ∧
    (∀ i n, (post_shutdown_trace tasks).get? i = some (.cancelTask n) →
      ∃ j, i < j ∧ (post_shutdown_trace tasks).get? j
          = some (.awaitAll (tasks_to_cancel tasks)) ∧
        n ∈ tasks_to_cancel tasks) := by
  by_cases hempty : (tasks_to_cancel tasks).isEmpty
  · (repeat' constructor) <;> try simp [post_shutdown_trace, hempty]
    · intro i n hi
      rcases i with _ | m
      · simp [post_shutdown_trace, hempty] at hi
      · simp [post_shutdown_trace, hempty] at hi
    · intro n hn
      have := mem_tasks_to_cancel hn
      rw [List.isEmpty_iff] at hempty
      simp [hempty] at this
    · intro i n hi
      rcases i with _ | m
      · simp [post_shutdown_trace, hempty] at hi
      · simp [post_shutdown_trace, hempty] at hi
  · have htr : post_shutdown_trace tasks =
        .setFlag :: ((tasks_to_cancel tasks).map .cancelTask ++
          [.awaitAll (tasks_to_cancel tasks)]) := by
      simp [post_shutdown_trace, hempty]
    refine ⟨by rw [htr]; rfl, ?_, ?_, ?_⟩
    · intro i n hi
      rcases i with _ | m
      · rw [htr] at hi; simp at hi
      · rw [htr]
        unfold flag_before
        simp [List.take_cons]
    · intro n hn
      rw [htr]
      exact List.mem_cons_of_mem _
        (List.mem_append_left _ (List.mem_map.mpr ⟨n, mem_tasks_to_cancel hn, rfl⟩))
    · intro i n hi
      rw [htr] at hi
      rcases i with _ | m
      · simp at hi
      · simp only [List.get?_cons_succ] at hi
        have hlen : ((tasks_to_cancel tasks).map ShutdownAction.cancelTask).length
            = (tasks_to_cancel tasks).length := List.length_map _ _
        by_cases hm : m < (tasks_to_cancel tasks).length
        · refine ⟨(tasks_to_cancel tasks).length + 1, by omega, ?_, ?_⟩
          · rw [htr]
            simp only [List.get?_cons_succ]
            rw [List.get?_append_right (by omega)]
            simp [hlen]
          · rw [List.get?_append (by omega), List.get?_map] at hi
            rcases hx : (tasks_to_cancel tasks).get? m with _ | x
            · rw [hx] at hi; simp at hi
            · rw [hx] at hi
              have hxn : x = n := by simpa using hi
              cases hxn
              exact List.get?_mem hx
        · rw [List.get?_append_right (by omega)] at hi
          rcases hk : m - ((tasks_to_cancel tasks).map ShutdownAction.cancelTask).length
            with _ | k
          · rw [hk] at hi; simp at hi
          · rw [hk] at hi; simp at hi

/-- C7 witness: an active set holding one live task, one record without a task
object, and one already-finished task. -/
theorem post_shutdown_flag_then_cancel_witness :
    (post_shutdown_trace [some (1, false), none, some (2, true)]).get? 0
        = some .setFlag ∧
    ShutdownAction.cancelTask 1 ∈
      post_shutdown_trace [some (1, false), none, some (2, true)] ∧
    flag_before (post_shutdown_trace [some (1, false), none, some (2, true)]) 1 :=
  ⟨(post_shutdown_flag_then_cancel [some (1, false), none, some (2, true)]).1,
   (post_shutdown_flag_then_cancel [some (1, false), none, some (2, true)]).2.2.1
     1 (by simp),
   (post_shutdown_flag_then_cancel [some (1, false), none, some (2, true)]).2.1
     1 1 (by simp [post_shutdown_trace, tasks_to_cancel])⟩

/-- C10 witness: in a torrent with one `.mkv` file and one `.txt` file, the
`.mkv` entry gets priority `1` and the `.txt` entry gets priority `0`. -/
theorem build_priorities_allowlist_witness :
    ((build_priorities ALLOWED_EXTENSIONS ["Big Movie.MKV", "notes.txt"]).get? 0
        = some 1 ↔ strLower (splitext_ext "Big Movie.MKV") ∈ ALLOWED_EXTENSIONS) ∧
    ((build_priorities ALLOWED_EXTENSIONS ["Big Movie.MKV", "notes.txt"]).get? 1
        = some 0 ↔ strLower (splitext_ext "notes.txt") ∉ ALLOWED_EXTENSIONS) :=
  ⟨((build_priorities_allowlist ALLOWED_EXTENSIONS ["Big Movie.MKV", "notes.txt"]).2
      0 "Big Movie.MKV" rfl).1,
   ((build_priorities_allowlist ALLOWED_EXTENSIONS ["Big Movie.MKV", "notes.txt"]).2
      1 "notes.txt" rfl).2⟩

end TDB
